import Mathlib

/-!
Shallow embedding of the arXiv-paper-search chatbot (notebook `L3.ipynb`).

The embedded code is the agent loop of the notebook:

* `execute_tool` (notebook cell 17): resolves a tool name in the
  `mapping_tool_function` dictionary via a plain (unguarded) index,
  invokes the capability, and normalizes the raw Python return value
  to a string (`None` / `list` / `dict` / fallback `str()` branches).
* `process_query` (notebook cell 22): the turn loop.  It keeps a
  `messages` list, a current `response`, and a boolean `process_query`
  flag; for each content block of the response it either prints a text
  block or executes a `tool_use` block, appending an assistant turn and
  a single-entry tool-result turn and calling the model again.
* `chat_loop` (notebook cell 24): the REPL; wraps each query in
  `try/except`, breaking only on the input `quit`.

Embedding conventions:

* Python values that a capability may return are modelled by `PyVal`
  (`None`, `str`, `int`, `bool`, `list`, `dict`); a `dict` is an
  association list in insertion order, as Python dicts are ordered.
* A raised Python exception is modelled by `Except.error : PyErr`;
  code that Python runs without raising is `Except.ok`.
* The Anthropic client is external; it is modelled by an `Oracle`
  giving the response of the k-th `client.messages.create` call.
* Python list aliasing is modelled explicitly: an assistant turn
  appended to `messages` holds a *reference* (`PTurn.aRef`) to the
  in-progress `assistant_content` accumulator, and the observable
  message list is computed by `msgs`, which dereferences it against
  the accumulator's current value — exactly as the live Python list
  would be observed.
-/

namespace ArxivChatbot

/-- A Python value, as far as the notebook's tool layer is concerned. -/
inductive PyVal where
  | none : PyVal
  | str (s : String) : PyVal
  | int (n : Int) : PyVal
  | bool (b : Bool) : PyVal
  | list (xs : List PyVal) : PyVal
  | dict (kvs : List (String × PyVal)) : PyVal

/-- Keyword arguments of a tool call (`tool_args`), a string-keyed bag. -/
abbrev Args := List (String × PyVal)

/-- A raised Python exception. `keyError` is what the unguarded
`mapping_tool_function[tool_name]` raises on an unknown name;
`typeError` is what `', '.join` raises on a non-string element;
`capError` stands for an arbitrary exception raised by a capability. -/
inductive PyErr where
  | keyError (k : String) : PyErr
  | typeError : PyErr
  | capError (msg : String) : PyErr
deriving DecidableEq

/-- A tool capability: receives the argument bag, returns a raw Python
value or raises.  (The notebook's concrete capabilities `search_papers`
and `extract_info` do arXiv/network and filesystem I/O and are external
collaborators; the loop is parametric in this mapping.) -/
abbrev Capability := Args → Except PyErr PyVal

/-- The `mapping_tool_function` dictionary: tool name to capability. -/
abbrev Mapping := List (String × Capability)

/-- Python dict lookup, first binding wins. -/
def lookupTool : Mapping → String → Option Capability
  | [], _ => Option.none
  | (k, f) :: rest, n => if k = n then some f else lookupTool rest n

/-- Two-space indentation prefix used by `json.dumps(..., indent=2)`. -/
def jsonIndent (lvl : Nat) : String := String.mk (List.replicate (2 * lvl) ' ')

/-- JSON string escaping as `json.dumps` performs it (the escapes that
can arise from the values modelled here). -/
def jsonEscape (s : String) : String :=
  String.mk (s.data.foldr
    (fun c acc =>
      if c = '\\' then '\\' :: '\\' :: acc
      else if c = '\"' then '\\' :: '\"' :: acc
      else if c = '\n' then '\\' :: 'n' :: acc
      else if c = '\t' then '\\' :: 't' :: acc
      else if c = '\r' then '\\' :: 'r' :: acc
      else c :: acc) [])

mutual

/-- `json.dumps(v, indent=2)`, at nesting level `lvl`. -/
def json_dumps_val (lvl : Nat) : PyVal → String
  | .none => "null"
  | .str s => "\"" ++ jsonEscape s ++ "\""
  | .int n => toString n
  | .bool b => if b then "true" else "false"
  | .list [] => "[]"
  | .list (x :: xs) =>
      "[\n" ++ String.intercalate ",\n" (json_dumps_items (lvl + 1) (x :: xs))
      ++ "\n" ++ jsonIndent lvl ++ "]"
  | .dict [] => "\x7b\x7d"
  | .dict (kv :: kvs) =>
      "\x7b\n" ++ String.intercalate ",\n" (json_dumps_entries (lvl + 1) (kv :: kvs))
      ++ "\n" ++ jsonIndent lvl ++ "\x7d"

/-- Renders each list element on its own indented line. -/
def json_dumps_items (lvl : Nat) : List PyVal → List String
  | [] => []
  | v :: vs => (jsonIndent lvl ++ json_dumps_val lvl v) :: json_dumps_items lvl vs

/-- Renders each dict entry on its own indented line. -/
def json_dumps_entries (lvl : Nat) : List (String × PyVal) → List String
  | [] => []
  | (k, v) :: kvs =>
      (jsonIndent lvl ++ "\"" ++ jsonEscape k ++ "\": " ++ json_dumps_val lvl v)
        :: json_dumps_entries lvl kvs

end

/-- Extracts the strings of a Python list if every element is a `str`;
`', '.join` succeeds exactly in that case and raises `TypeError`
otherwise. -/
def allStrings : List PyVal → Option (List String)
  | [] => some []
  | .str s :: vs =>
      match allStrings vs with
      | some ss => some (s :: ss)
      | Option.none => Option.none
  | _ :: _ => Option.none

/-- The `elif isinstance(result, list): result = ', '.join(result)`
branch of `execute_tool`. -/
def joinResult (xs : List PyVal) : Except PyErr String :=
  match allStrings xs with
  | some ss => .ok (String.intercalate ", " ss)
  | Option.none => .error .typeError

/-- The result-normalization suite of `execute_tool` (notebook cell 17,
lines after the capability call): `None` → fixed placeholder sentence,
`list` → `', '.join(result)`, `dict` → `json.dumps(result, indent=2)`,
anything else → `str(result)`. -/
def normalize_result : PyVal → Except PyErr String
  | .none => .ok "The operation completed but didn\x27t return any results."
  | .list xs => joinResult xs
  | .dict kvs => .ok (json_dumps_val 0 (.dict kvs))
  | .str s => .ok s
  | .int n => .ok (toString n)
  | .bool b => .ok (if b then "True" else "False")

/-- `execute_tool(tool_name, tool_args)` (notebook cell 17):
`result = mapping_tool_function[tool_name](**tool_args)` — an unguarded
dict index (raises `KeyError` on an unknown name) followed by an
unguarded capability invocation — then result normalization. -/
def execute_tool (mapping : Mapping) (tool_name : String) (tool_args : Args) :
    Except PyErr String :=
  match lookupTool mapping tool_name with
  | Option.none => .error (.keyError tool_name)
  | some f =>
      match f tool_args with
      | .error e => .error e
      | .ok result => normalize_result result

/-- A content block of a model response: a text segment or a
`tool_use` request carrying `id`, `name` and `input`. -/
inductive Block where
  | text (s : String) : Block
  | toolUse (id : String) (name : String) (input : Args) : Block

/-- `response.content`: the ordered list of content blocks. -/
abbrev ModelResponse := List Block

/-- The reasoning backend, modelled as the sequence of responses the
k-th `client.messages.create` call returns (the backend is external
and non-deterministic; the loop is proved for every oracle). -/
abbrev Oracle := Nat → ModelResponse

/-- An observable event of `process_query`: a printed text segment, or
the `Calling tool {name} with args {args}` line announcing a tool
invocation. -/
inductive Event where
  | textEv (s : String) : Event
  | toolEv (name : String) (args : Args) : Event

/-- An observable conversation turn of the `messages` list:
`\x7b'role': 'user', 'content': query\x7d`, an assistant turn holding
content blocks, or a tool-result turn (sent with role `user`) holding
`(tool_use_id, content)` pairs. -/
inductive RTurn where
  | user (content : String) : RTurn
  | assistant (content : List Block) : RTurn
  | toolResult (results : List (String × String)) : RTurn

/-- A turn as stored in `messages` during one pass of the `while` body:
`aRef` is an assistant turn whose content *is* (aliases) the live
`assistant_content` list; `frozen` is a turn whose content is fixed at
append time (user and tool-result turns, and assistant turns from
earlier passes, whose accumulator is no longer the live one). -/
inductive PTurn where
  | aRef : PTurn
  | frozen (t : RTurn) : PTurn

/-- State during one pass of the `while process_query:` body. -/
structure St where
  /-- `messages` as frozen before this pass began. -/
  base : List RTurn
  /-- turns appended to `messages` during this pass. -/
  newT : List PTurn
  /-- the live `assistant_content` list. -/
  acc : List Block
  /-- the current value of the `response` variable. -/
  resp : ModelResponse
  /-- the `process_query` loop flag. -/
  flag : Bool
  /-- everything printed so far. -/
  evs : List Event
  /-- number of `client.messages.create` calls made so far. -/
  calls : Nat

/-- Dereference a stored turn against the live accumulator. -/
def renderP (acc : List Block) : PTurn → RTurn
  | .aRef => .assistant acc
  | .frozen t => t

/-- The observable `messages` list at this point of the pass. -/
def msgs (s : St) : List RTurn := s.base ++ s.newT.map (renderP s.acc)

/-- One iteration of `for content in response.content:` on one block.
Text branch: print the text, append the block to `assistant_content`,
and clear the loop flag if the *current* `response` has exactly one
block.  `tool_use` branch: append the block to `assistant_content`,
append an assistant turn aliasing `assistant_content` to `messages`,
print the `Calling tool` line, run `execute_tool` (a raise propagates),
append a single-entry tool-result turn, call the model again, and if
the new response is a single text block print it and clear the flag. -/
def procBlock (o : Oracle) (m : Mapping) (s : St) : Block → Except PyErr St
  | .text t =>
      let s1 : St := { s with evs := s.evs ++ [.textEv t], acc := s.acc ++ [.text t] }
      if s.resp.length = 1 then .ok { s1 with flag := false } else .ok s1
  | .toolUse id name args =>
      match execute_tool m name args with
      | .error e => .error e
      | .ok r =>
          let s1 : St :=
            { base := s.base
              newT := s.newT ++ [.aRef, .frozen (.toolResult [(id, r)])]
              acc := s.acc ++ [.toolUse id name args]
              resp := o s.calls
              flag := s.flag
              evs := s.evs ++ [.toolEv name args]
              calls := s.calls + 1 }
          match o s.calls with
          | [.text t] => .ok { s1 with evs := s1.evs ++ [.textEv t], flag := false }
          | _ => .ok s1

/-- The whole `for content in response.content:` loop.  The iterated
list is the one captured when the `for` statement runs, even though the
`response` variable may be rebound by the body. -/
def procBlocks (o : Oracle) (m : Mapping) : List Block → St → Except PyErr St
  | [], s => .ok s
  | b :: bs, s =>
      match procBlock o m s b with
      | .error e => .error e
      | .ok s1 => procBlocks o m bs s1

/-- State between passes of the `while` loop (all aliases frozen: the
next pass creates a fresh `assistant_content`). -/
structure WSt where
  messages : List RTurn
  resp : ModelResponse
  evs : List Event
  calls : Nat

/-- Result of running the loop with bounded fuel: `done` when the
`process_query` flag was cleared, `spin` when the fuel ran out with the
flag still set (the Python loop is still running at that point — the
source has no iteration bound). -/
inductive Outcome where
  | done (w : WSt) : Outcome
  | spin (w : WSt) : Outcome

/-- The conversation of an outcome. -/
def Outcome.messages : Outcome → List RTurn
  | .done w => w.messages
  | .spin w => w.messages

/-- The pass state at entry of a `while` iteration: `assistant_content`
is rebound to a fresh empty list, nothing is appended yet, and the
flag is true (the loop was entered). -/
def passStart (w : WSt) : St :=
  { base := w.messages, newT := [], acc := [], resp := w.resp
    flag := true, evs := w.evs, calls := w.calls }

/-- `while process_query:` under `fuel` iterations.  Each pass starts
with a fresh empty `assistant_content`, folds the body over the blocks
of the current response, freezes the pass's turns, and loops while the
flag is still set. -/
def loopW (o : Oracle) (m : Mapping) : Nat → WSt → Except PyErr Outcome
  | 0, w => .ok (.spin w)
  | fuel + 1, w =>
      match procBlocks o m w.resp (passStart w) with
      | .error e => .error e
      | .ok s1 =>
          let w1 : WSt :=
            { messages := msgs s1, resp := s1.resp, evs := s1.evs, calls := s1.calls }
          if s1.flag then loopW o m fuel w1 else .ok (.done w1)

/-- `process_query(query)` (notebook cell 22): initialize `messages`
with the user turn, make the first `client.messages.create` call, and
run the `while` loop.  `fuel` bounds the number of `while` iterations
observed; the source itself has no bound. -/
def process_query (o : Oracle) (m : Mapping) (query : String) (fuel : Nat) :
    Except PyErr Outcome :=
  loopW o m fuel { messages := [.user query], resp := o 0, evs := [], calls := 1 }

/-- Python's `str.lower()` (over the ASCII range the REPL compares). -/
def pyLower (s : String) : String := String.mk (s.data.map Char.toLower)

/-- Python's `str.strip()`: removes leading and trailing whitespace. -/
def pyStrip (s : String) : String :=
  String.mk
    (((s.data.dropWhile Char.isWhitespace).reverse.dropWhile
        Char.isWhitespace).reverse)

/-- `chat_loop()` (notebook cell 24), parametric in the behavior of
`process_query` on each stripped query.  Consumes the queue of user
inputs; returns the per-query results (an `Except.error` entry is a
caught exception, printed as `Error: ...` and recovered from) and
whether the loop exited via the `quit` break. -/
def chat_loop (pq : String → Except PyErr Outcome) : List String →
    List (String × Except PyErr Outcome) × Bool
  | [] => ([], false)
  | q :: qs =>
      let q1 := pyStrip q
      if pyLower q1 = "quit" then ([], true)
      else
        let rest := chat_loop pq qs
        ((q1, pq q1) :: rest.1, rest.2)

/-- Is this turn a tool-result turn? -/
def isToolResultTurn : RTurn → Bool
  | .toolResult _ => true
  | _ => false

/-- Number of ToolResult entries of a tool-result turn. -/
def trLen : RTurn → Option Nat
  | .toolResult rs => some rs.length
  | _ => none

/-- Is this turn an assistant turn? -/
def isAssistant : RTurn → Bool
  | .assistant _ => true
  | _ => false

/-- The `call_id` lists of the tool-result turns appended during a
pass, in order. -/
def trIdsOf : List PTurn → List (List String)
  | [] => []
  | .frozen (.toolResult rs) :: ps => rs.map Prod.fst :: trIdsOf ps
  | _ :: ps => trIdsOf ps

/-- The request ids of the tool-call blocks of a response, each as a
singleton list, in order. -/
def tuIdsOf : List Block → List (List String)
  | [] => []
  | .toolUse i _ _ :: bs => [i] :: tuIdsOf bs
  | .text _ :: bs => tuIdsOf bs

/-- Number of tool-call blocks in a response. -/
def countTU : List Block → Nat
  | [] => 0
  | .toolUse _ _ _ :: bs => countTU bs + 1
  | .text _ :: bs => countTU bs

/-- Number of assistant turns appended during a pass. -/
def countAR : List PTurn → Nat
  | [] => 0
  | .aRef :: ps => countAR ps + 1
  | .frozen _ :: ps => countAR ps

/-- Projects a tool-invocation event to its `(name, args)`. -/
def evToolProj : Event → Option (String × Args)
  | .toolEv n a => some (n, a)
  | .textEv _ => none

/-- Projects a tool-call block to its `(name, args)`. -/
def blockToolProj : Block → Option (String × Args)
  | .toolUse _ n a => some (n, a)
  | .text _ => none

/-- Projects a text block to the event its emission produces. -/
def blockTextProj : Block → Option Event
  | .text t => some (.textEv t)
  | .toolUse _ _ _ => none

/-! Concrete fixtures used by the counterexamples and witnesses.  The
capabilities are stubs standing for the external `search_papers` and
`extract_info` implementations (arXiv / filesystem I/O); only their
names and return values matter to the loop. -/

/-- Stub for `search_papers`: returns a list of paper-id strings, as
the real tool does. -/
def sp_stub : Capability := fun _ => .ok (.list [.str "p1", .str "p2"])

/-- Stub for `extract_info`: returns a plain string, as the real tool
does when nothing is saved. -/
def ei_stub : Capability := fun _ => .ok (.str "info")

/-- The notebook's `mapping_tool_function` keys with stub capabilities. -/
def mapping1 : Mapping := [("search_papers", sp_stub), ("extract_info", ei_stub)]

/-- A first tool-call block. -/
def tuA : Block := .toolUse "toolu_01" "search_papers" [("topic", .str "computers")]

/-- A second tool-call block in the same response. -/
def tuB : Block := .toolUse "toolu_02" "extract_info" [("paper_id", .str "p1")]

/-- Backend behavior: first response holds two tool calls, every later
response is a single text block. -/
def oracle2tools : Oracle := fun n => if n = 0 then [tuA, tuB] else [.text "ok"]

/-- Backend behavior: a single text block, every call. -/
def oracleOneText : Oracle := fun _ => [.text "hi"]

/-- A capability returning a list that contains a non-string. -/
def ints_stub : Capability := fun _ => .ok (.list [.int 1])

/-- Mapping holding the non-string-list capability. -/
def mappingInts : Mapping := [("ints", ints_stub)]

/-- A `process_query` behavior that always raises (for exercising the
REPL's recovery). -/
def pqBoom : String → Except PyErr Outcome := fun _ => .error (.capError "boom")

/-- The pass state after processing `[tuA]` from `st0`: one assistant
turn (aliasing the accumulator), one single-entry tool-result turn, one
further model call, and the loop flag cleared by the single-text inner
response. -/
def stA : St :=
  { base := [.user "q"]
    newT := [.aRef, .frozen (.toolResult [("toolu_01", "p1, p2")])]
    acc := [tuA]
    resp := [.text "ok"]
    flag := false
    evs := [.toolEv "search_papers" [("topic", .str "computers")], .textEv "ok"]
    calls := 2 }

/-- The pass state after processing `[tuA, tuB]` from `st0`. -/
def stAB : St :=
  { base := [.user "q"]
    newT := [.aRef, .frozen (.toolResult [("toolu_01", "p1, p2")]),
             .aRef, .frozen (.toolResult [("toolu_02", "info")])]
    acc := [tuA, tuB]
    resp := [.text "ok"]
    flag := false
    evs := [.toolEv "search_papers" [("topic", .str "computers")], .textEv "ok",
            .toolEv "extract_info" [("paper_id", .str "p1")], .textEv "ok"]
    calls := 3 }

/-- The conversation state `process_query` ends with on the
two-tool-call response of `oracle2tools`. -/
def doneW : WSt :=
  { messages := [.user "q",
      .assistant [tuA, tuB], .toolResult [("toolu_01", "p1, p2")],
      .assistant [tuA, tuB], .toolResult [("toolu_02", "info")]]
    resp := [.text "ok"]
    evs := [.toolEv "search_papers" [("topic", .str "computers")], .textEv "ok",
            .toolEv "extract_info" [("paper_id", .str "p1")], .textEv "ok"]
    calls := 3 }

/-- Backend behavior: the model asks for a tool name that is not in
the mapping. -/
def oracleBad : Oracle := fun _ => [.toolUse "x1" "bad_tool" []]

/-- A capability that raises. -/
def boom_stub : Capability := fun _ => .error (.capError "boom")

/-- Mapping holding the raising capability. -/
def mappingBoom : Mapping := [("boomer", boom_stub)]

/-- Backend behavior: the model calls the raising tool. -/
def oracleBoom : Oracle := fun _ => [.toolUse "x1" "boomer" []]

/-- Backend behavior: a degenerate zero-block response. -/
def oracleEmpty : Oracle := fun _ => []

/-- Backend behavior: a pure-text response of two text blocks. -/
def oracleTwoTexts : Oracle := fun _ => [.text "a", .text "b"]

/-- The pass state at entry of the first `while` iteration for query
`"q"` with first response `[tuA, tuB]`. -/
def st0 : St :=
  { base := [.user "q"], newT := [], acc := [], resp := [tuA, tuB]
    flag := true, evs := [], calls := 1 }

/-! ## General lemmas about one pass of the while body -/

theorem trIdsOf_append (xs ys : List PTurn) :
    trIdsOf (xs ++ ys) = trIdsOf xs ++ trIdsOf ys := by
  induction xs with
  | nil => rfl
  | cons p ps ih =>
      cases p with
      | aRef => simpa [trIdsOf] using ih
      | frozen t => cases t <;> simp [trIdsOf, ih]

theorem countAR_append (xs ys : List PTurn) :
    countAR (xs ++ ys) = countAR xs + countAR ys := by
  induction xs with
  | nil => simp [countAR]
  | cons p ps ih =>
      cases p with
      | aRef => simp [countAR, ih]; omega
      | frozen t => simp [countAR, ih]

/-- What one iteration of the `for` body does to the extension-visible
state: the frozen prefix is untouched; a text block appends no turn,
emits its text and calls nobody; a tool-call block appends one
assistant turn and one single-entry tool-result turn carrying the
call's id, emits its invocation event first, and makes exactly one
further model call. -/
theorem procBlock_extension (o : Oracle) (m : Mapping) (b : Block) (s s2 : St)
    (h : procBlock o m s b = .ok s2) :
    s2.base = s.base ∧
    (∃ ts, s2.newT = s.newT ++ ts ∧ trIdsOf ts = tuIdsOf [b] ∧
      countAR ts = countTU [b]) ∧
    (∃ es, s2.evs = s.evs ++ es ∧
      es.filterMap evToolProj = [b].filterMap blockToolProj ∧
      List.Sublist ([b].filterMap blockTextProj) es) ∧
    s2.calls = s.calls + countTU [b] := by
  cases b with
  | text t =>
      simp only [procBlock] at h
      split at h <;> cases h <;>
        exact ⟨rfl, ⟨[], by simp [trIdsOf, tuIdsOf, countAR, countTU]⟩,
          ⟨[.textEv t], by simp [List.filterMap, evToolProj, blockToolProj, blockTextProj]⟩,
          by simp [countTU]⟩
  | toolUse id name args =>
      simp only [procBlock] at h
      split at h
      · exact absurd h (by simp)
      · rename_i r hr
        split at h <;> cases h
        · rename_i t ht
          exact ⟨rfl,
            ⟨[.aRef, .frozen (.toolResult [(id, r)])],
              by simp [trIdsOf, tuIdsOf, countAR, countTU]⟩,
            ⟨[.toolEv name args, .textEv t],
              by simp [List.filterMap, evToolProj, blockToolProj, blockTextProj]⟩,
            by simp [countTU]⟩
        · exact ⟨rfl,
            ⟨[.aRef, .frozen (.toolResult [(id, r)])],
              by simp [trIdsOf, tuIdsOf, countAR, countTU]⟩,
            ⟨[.toolEv name args],
              by simp [List.filterMap, evToolProj, blockToolProj, blockTextProj]⟩,
            by simp [countTU]⟩

/-- Extension behavior of a whole pass over the captured block list. -/
theorem procBlocks_extension (o : Oracle) (m : Mapping) :
    ∀ (bs : List Block) (s s1 : St), procBlocks o m bs s = .ok s1 →
    s1.base = s.base ∧
    (∃ ts, s1.newT = s.newT ++ ts ∧ trIdsOf ts = tuIdsOf bs ∧
      countAR ts = countTU bs) ∧
    (∃ es, s1.evs = s.evs ++ es ∧
      es.filterMap evToolProj = bs.filterMap blockToolProj ∧
      List.Sublist (bs.filterMap blockTextProj) es) ∧
    s1.calls = s.calls + countTU bs := by
  intro bs
  induction bs with
  | nil =>
      intro s s1 h
      cases h
      exact ⟨rfl, ⟨[], by simp [trIdsOf, tuIdsOf, countAR, countTU]⟩,
        ⟨[], by simp [List.filterMap]⟩, by simp [countTU]⟩
  | cons b bs ih =>
      intro s s1 h
      simp only [procBlocks] at h
      split at h
      · exact absurd h (by simp)
      · rename_i s2 hb
        obtain ⟨hbase2, ⟨ts2, hnt2, hids2, har2⟩, ⟨es2, hev2, htool2, hsub2⟩, hc2⟩ :=
          procBlock_extension o m b s s2 hb
        obtain ⟨hbase1, ⟨ts1, hnt1, hids1, har1⟩, ⟨es1, hev1, htool1, hsub1⟩, hc1⟩ :=
          ih s2 s1 h
        refine ⟨hbase1.trans hbase2,
          ⟨ts2 ++ ts1, ?_, ?_, ?_⟩, ⟨es2 ++ es1, ?_, ?_, ?_⟩, ?_⟩
        · rw [hnt1, hnt2, List.append_assoc]
        · rw [trIdsOf_append, hids2, hids1]
          cases b <;> simp [tuIdsOf]
        · rw [countAR_append, har2, har1]
          cases b with
          | text t => simp [countTU]
          | toolUse i n a => simp [countTU]; omega
        · rw [hev1, hev2, List.append_assoc]
        · rw [List.filterMap_append, htool2, htool1]
          cases b <;> simp [List.filterMap, blockToolProj]
        · rw [show (b :: bs) = [b] ++ bs from rfl, List.filterMap_append]
          exact List.Sublist.append hsub2 hsub1
        · rw [hc1, hc2]
          cases b with
          | text t => simp [countTU]
          | toolUse i n a => simp [countTU]; omega

/-! ## Mutation-tracking lemmas (for the append-only claim) -/

/-- How an already-visible turn may relate to its later observation:
either it is unchanged, or both observations are assistant turns (the
content of an assistant turn appended during the current pass aliases
the live `assistant_content` list and can grow). -/
def turnRel (a b : RTurn) : Prop :=
  a = b ∨ (isAssistant a = true ∧ isAssistant b = true)

theorem turnRel_trans {a b c : RTurn} (h1 : turnRel a b) (h2 : turnRel b c) :
    turnRel a c := by
  cases h1 with
  | inl h => exact h ▸ h2
  | inr h =>
      cases h2 with
      | inl h2 => exact Or.inr (h2 ▸ h)
      | inr h2 => exact Or.inr ⟨h.1, h2.2⟩

/-- Observing the rendered message list before and after the pass
extends `newT` by `ext` and the accumulator changes: every index
visible before is visible after, frozen turns are unchanged, and
accumulator-aliased turns stay assistant turns. -/
theorem render_rel (base : List RTurn) (nT ext : List PTurn) (acc acc2 : List Block) :
    ∀ (i : Nat) (a : RTurn), (base ++ nT.map (renderP acc))[i]? = some a →
    ∃ b, (base ++ (nT ++ ext).map (renderP acc2))[i]? = some b ∧ turnRel a b := by
  intro i a ha
  by_cases hi : i < base.length
  · rw [List.getElem?_append_left hi] at ha ⊢
    exact ⟨a, ha, Or.inl rfl⟩
  · push_neg at hi
    rw [List.getElem?_append_right hi] at ha ⊢
    rw [List.getElem?_map] at ha ⊢
    obtain ⟨p, hp, hpa⟩ := Option.map_eq_some'.mp ha
    have hj : i - base.length < nT.length := List.getElem?_eq_some.mp hp |>.1
    rw [List.getElem?_append_left hj, hp]
    refine ⟨renderP acc2 p, rfl, ?_⟩
    cases p with
    | aRef => exact Or.inr (by subst hpa; exact ⟨rfl, rfl⟩)
    | frozen t => exact Or.inl (by subst hpa; rfl)

/-- One `for` iteration: every previously observable turn stays at its
index, unchanged unless it is an aliased assistant turn. -/
theorem procBlock_rel (o : Oracle) (m : Mapping) (b : Block) (s s2 : St)
    (h : procBlock o m s b = .ok s2) :
    ∀ (i : Nat) (a : RTurn), (msgs s)[i]? = some a →
    ∃ c, (msgs s2)[i]? = some c ∧ turnRel a c := by
  cases b with
  | text t =>
      simp only [procBlock] at h
      split at h <;> cases h <;>
        · intro i a ha
          have h2 := render_rel s.base s.newT [] s.acc (s.acc ++ [.text t]) i a ha
          simpa [msgs] using h2
  | toolUse id name args =>
      simp only [procBlock] at h
      split at h
      · exact absurd h (by simp)
      · rename_i r hr
        split at h <;> cases h <;>
          · intro i a ha
            have h2 := render_rel s.base s.newT
              [.aRef, .frozen (.toolResult [(id, r)])]
              s.acc (s.acc ++ [.toolUse id name args]) i a ha
            simpa [msgs] using h2

/-- A whole pass: same index-preservation property. -/
theorem procBlocks_rel (o : Oracle) (m : Mapping) :
    ∀ (bs : List Block) (s s1 : St), procBlocks o m bs s = .ok s1 →
    ∀ (i : Nat) (a : RTurn), (msgs s)[i]? = some a →
    ∃ c, (msgs s1)[i]? = some c ∧ turnRel a c := by
  intro bs
  induction bs with
  | nil =>
      intro s s1 h i a ha
      cases h
      exact ⟨a, ha, Or.inl rfl⟩
  | cons b bs ih =>
      intro s s1 h i a ha
      simp only [procBlocks] at h
      split at h
      · exact absurd h (by simp)
      · rename_i s2 hb
        obtain ⟨c, hc, hrel⟩ := procBlock_rel o m b s s2 hb i a ha
        obtain ⟨d, hd, hrel2⟩ := ih s2 s1 h i c hc
        exact ⟨d, hd, turnRel_trans hrel hrel2⟩

/-- The whole `while` loop: every turn observable in the conversation
when an iteration starts is still at its index when the loop returns,
unchanged unless it is an assistant turn. -/
theorem loopW_rel (o : Oracle) (m : Mapping) :
    ∀ (fuel : Nat) (w : WSt) (r : Outcome), loopW o m fuel w = .ok r →
    ∀ (i : Nat) (a : RTurn), w.messages[i]? = some a →
    ∃ c, (Outcome.messages r)[i]? = some c ∧ turnRel a c := by
  intro fuel
  induction fuel with
  | zero =>
      intro w r h i a ha
      cases h
      exact ⟨a, ha, Or.inl rfl⟩
  | succ fuel ih =>
      intro w r h i a ha
      simp only [loopW] at h
      split at h
      · exact absurd h (by simp)
      · rename_i s1 hpass
        have ha0 : (msgs (passStart w))[i]? = some a := by
          simpa [msgs, passStart] using ha
        obtain ⟨c, hc, hrel⟩ := procBlocks_rel o m w.resp _ s1 hpass i a ha0
        split at h
        · obtain ⟨d, hd, hrel2⟩ := ih _ r h i c hc
          exact ⟨d, hd, turnRel_trans hrel hrel2⟩
        · cases h
          exact ⟨c, hc, hrel⟩

/-! ## Claims -/

/-- C1, counterexample.  On a response with N = 2 tool-call blocks the
loop does NOT append one assistant turn plus one tool-result turn with
2 entries before the next model call: it ends the pass having appended
two tool-result turns of one entry each, and having made two further
model calls (3 total), one after each tool execution — the first of
them before the second tool call ran (its single-text reply is the
`textEv` between the two `toolEv`s). -/
theorem C1_counterexample :
    process_query oracle2tools mapping1 "q" 2 = .ok (.done doneW) ∧
    doneW.messages.countP isToolResultTurn = 2 ∧
    doneW.messages.filterMap trLen = [1, 1] ∧
    doneW.calls = 3 :=
  ⟨rfl, rfl, rfl, rfl⟩

/-- C1, amended: for every response, the pass over its blocks appends,
per tool-call block in order, one assistant turn and one tool-result
turn whose single entry carries that block's id (`trIdsOf` lists, in
order, the `call_id`s of each appended tool-result turn — so every id
is answered, none duplicated, none omitted — and each such list is a
singleton), and makes exactly one further model call per tool-call
block (not a single batched turn before one next call). -/
theorem C1_per_call_turns (o : Oracle) (m : Mapping) (bs : List Block) (s s1 : St)
    (h : procBlocks o m bs s = .ok s1) :
    trIdsOf (s1.newT.drop s.newT.length) = tuIdsOf bs ∧
    countAR (s1.newT.drop s.newT.length) = countTU bs ∧
    s1.calls = s.calls + countTU bs := by
  obtain ⟨-, ⟨ts, hnt, hids, har⟩, -, hc⟩ := procBlocks_extension o m bs s s1 h
  rw [hnt, List.drop_left]
  exact ⟨hids, har, hc⟩

/-- C1, witness: the amended statement evaluated on the concrete
two-tool-call run. -/
theorem C1_witness :
    trIdsOf (stAB.newT.drop st0.newT.length) = tuIdsOf [tuA, tuB] ∧
    countAR (stAB.newT.drop st0.newT.length) = countTU [tuA, tuB] ∧
    stAB.calls = st0.calls + countTU [tuA, tuB] :=
  C1_per_call_turns oracle2tools mapping1 [tuA, tuB] st0 stAB rfl

/-- C2, counterexample.  `execute_tool` on a name missing from the
mapping raises `KeyError` (the dict index is unguarded) instead of
returning an error string, and the exception propagates out of
`process_query`: the query's processing aborts rather than continuing. -/
theorem C2_counterexample :
    execute_tool mapping1 "bad_tool" [] = .error (.keyError "bad_tool") ∧
    process_query oracleBad mapping1 "q" 5 = .error (.keyError "bad_tool") :=
  ⟨rfl, rfl⟩

/-- C2, amended: an unregistered tool name makes `execute_tool` raise
`KeyError`, and when the model requests such a tool the exception
propagates out of `process_query` (the loop does not continue). -/
theorem C2_unknown_tool_raises :
    (∀ (m : Mapping) (name : String) (args : Args),
      lookupTool m name = Option.none →
      execute_tool m name args = .error (.keyError name)) ∧
    (∀ (o : Oracle) (m : Mapping) (q id name : String) (args : Args) (fuel : Nat),
      o 0 = [.toolUse id name args] → lookupTool m name = Option.none →
      process_query o m q (fuel + 1) = .error (.keyError name)) := by
  constructor
  · intro m name args h
    unfold execute_tool
    rw [h]
  · intro o m q id name args fuel h0 hl
    simp [process_query, loopW, passStart, procBlocks, procBlock, execute_tool, h0, hl]

/-- C2, witness: the amended statement evaluated on the concrete
unknown-tool run. -/
theorem C2_witness :
    process_query oracleBad mapping1 "q" 1 = .error (.keyError "bad_tool") :=
  C2_unknown_tool_raises.2 oracleBad mapping1 "q" "x1" "bad_tool" [] 0 rfl rfl

/-- C3, counterexample.  An exception raised by a capability is not
caught by `execute_tool` (there is no try/except): it propagates, and
`process_query` terminates abnormally instead of reaching DONE. -/
theorem C3_counterexample :
    execute_tool mappingBoom "boomer" [] = .error (.capError "boom") ∧
    process_query oracleBoom mappingBoom "q" 5 = .error (.capError "boom") :=
  ⟨rfl, rfl⟩

/-- C3, amended: an exception raised by the invoked capability
propagates out of `execute_tool` unchanged, and out of `process_query`
when the model requested that tool (the conversation's processing
terminates abnormally; recovery happens only in the REPL's
`chat_loop`). -/
theorem C3_capability_error_propagates :
    (∀ (m : Mapping) (name : String) (args : Args) (c : Capability) (e : PyErr),
      lookupTool m name = some c → c args = .error e →
      execute_tool m name args = .error e) ∧
    (∀ (o : Oracle) (m : Mapping) (q id name : String) (args : Args)
      (c : Capability) (e : PyErr) (fuel : Nat),
      o 0 = [.toolUse id name args] → lookupTool m name = some c →
      c args = .error e →
      process_query o m q (fuel + 1) = .error e) := by
  constructor
  · intro m name args c e hl hc
    simp [execute_tool, hl, hc]
  · intro o m q id name args c e fuel h0 hl hc
    simp [process_query, loopW, passStart, procBlocks, procBlock, execute_tool, h0, hl, hc]

/-- C3, witness: the amended statement evaluated on the concrete
raising-capability run. -/
theorem C3_witness :
    process_query oracleBoom mappingBoom "q" 1 = .error (.capError "boom") :=
  C3_capability_error_propagates.2 oracleBoom mappingBoom "q" "x1" "boomer" []
    boom_stub (.capError "boom") 0 rfl rfl rfl

/-- A `while` iteration over a zero-block response changes nothing and
never clears the flag, so the loop spins for any fuel. -/
theorem loopW_empty_resp (o : Oracle) (m : Mapping) :
    ∀ (fuel : Nat) (w : WSt), w.resp = [] →
    loopW o m fuel w = .ok (.spin w) := by
  intro fuel
  induction fuel with
  | zero => intro w _; rfl
  | succ fuel ih =>
      intro w hresp
      obtain ⟨ms, rsp, es, cs⟩ := w
      dsimp only at hresp
      subst hresp
      show loopW o m fuel { messages := ms ++ [], resp := [], evs := es, calls := cs } =
        .ok (.spin { messages := ms, resp := [], evs := es, calls := cs })
      rw [List.append_nil]
      exact ih _ rfl

/-- C4, counterexample.  On a zero-block first response, `process_query`
does not terminate: after 5 iterations of the `while` loop it is still
running (`spin`, not `done`) — and would be after any number, per the
amended theorem — so there is no immediate silent DONE. -/
theorem C4_counterexample :
    process_query oracleEmpty mapping1 "q" 5 =
      .ok (.spin { messages := [.user "q"], resp := [], evs := [], calls := 1 }) :=
  rfl

/-- C4, amended: a zero-block response makes the loop spin forever:
for every iteration bound the loop is still running, having emitted no
event and made no further model call — but it never terminates (there
is no defensive DONE for the degenerate response). -/
theorem C4_zero_blocks_spins (o : Oracle) (m : Mapping) (q : String) (fuel : Nat)
    (h : o 0 = []) :
    process_query o m q fuel =
      .ok (.spin { messages := [.user q], resp := [], evs := [], calls := 1 }) := by
  unfold process_query
  rw [h]
  exact loopW_empty_resp o m fuel _ rfl

/-- C4, witness: the amended statement evaluated at fuel 7. -/
theorem C4_witness :
    process_query oracleEmpty mapping1 "q" 7 =
      .ok (.spin { messages := [.user "q"], resp := [], evs := [], calls := 1 }) :=
  C4_zero_blocks_spins oracleEmpty mapping1 "q" 7 rfl

/-- C5, counterexample.  Mid-pass observation of the conversation is
not append-only: after the first tool-call block of the two-call
response is processed (and the model called again), the turn at index 1
is an assistant turn with content `[tuA]`; after the second block of
the same response is processed, that same already-appended turn reads
`[tuA, tuB]` — a historical turn changed content, because its content
list aliases the live `assistant_content` accumulator. -/
theorem C5_counterexample :
    procBlocks oracle2tools mapping1 [tuA] st0 = .ok stA ∧
    procBlocks oracle2tools mapping1 [tuA, tuB] st0 = .ok stAB ∧
    (msgs stA)[1]? = some (.assistant [tuA]) ∧
    (msgs stAB)[1]? = some (.assistant [tuA, tuB]) ∧
    RTurn.assistant [tuA] ≠ RTurn.assistant [tuA, tuB] :=
  ⟨rfl, rfl, rfl, rfl, by simp [tuA, tuB]⟩

/-- C5, amended: the conversation is append-only up to assistant-turn
aliasing.  At every observation point, each previously visible turn is
still at its index (no deletion, additions only at the end) and is
unchanged unless it is an assistant turn — an assistant turn appended
during the current pass aliases the live accumulator and may have
gained later blocks of the same response.  User and tool-result turns
never change.  This holds within a pass (first part) and across the
whole `while` loop (second part). -/
theorem C5_append_only_up_to_aliasing :
    (∀ (o : Oracle) (m : Mapping) (bs : List Block) (s s1 : St),
      procBlocks o m bs s = .ok s1 →
      ∀ (i : Nat) (a : RTurn), (msgs s)[i]? = some a →
      ∃ c, (msgs s1)[i]? = some c ∧
        (a = c ∨ (isAssistant a = true ∧ isAssistant c = true))) ∧
    (∀ (o : Oracle) (m : Mapping) (fuel : Nat) (w : WSt) (r : Outcome),
      loopW o m fuel w = .ok r →
      ∀ (i : Nat) (a : RTurn), w.messages[i]? = some a →
      ∃ c, (Outcome.messages r)[i]? = some c ∧
        (a = c ∨ (isAssistant a = true ∧ isAssistant c = true))) :=
  ⟨fun o m bs s s1 h i a ha => procBlocks_rel o m bs s s1 h i a ha,
   fun o m fuel w r h i a ha => loopW_rel o m fuel w r h i a ha⟩

/-- C5, witness: the amended statement evaluated on the concrete
one-block pass, at the index of the user turn. -/
theorem C5_witness :
    ∃ c, (msgs stAB)[1]? = some c ∧
      (RTurn.assistant [tuA] = c ∨
        (isAssistant (RTurn.assistant [tuA]) = true ∧ isAssistant c = true)) :=
  C5_append_only_up_to_aliasing.1 oracle2tools mapping1 [tuB] stA stAB rfl 1
    (.assistant [tuA]) rfl

/-- C6, counterexample.  The normalization is not defined for every
possible return shape: a list containing a non-string makes
`', '.join(result)` raise `TypeError`, which propagates out of
`execute_tool`. -/
theorem C6_counterexample :
    normalize_result (.list [.int 1]) = .error .typeError ∧
    execute_tool mappingInts "ints" [] = .error .typeError :=
  ⟨rfl, rfl⟩

/-- C6, amended: the normalization is the fixed mapping of the source
over the declared return shapes — `None` → fixed placeholder sentence,
list of strings → comma-joined, mapping → serialized with the record's
own (insertion) key order, scalar → its `str()` form — and is total on
those shapes; it is not total on every possible value (a list holding
a non-string raises, see the counterexample). -/
theorem C6_normalization_cases :
    normalize_result .none =
      .ok "The operation completed but didn\x27t return any results." ∧
    (∀ ss : List String,
      normalize_result (.list (ss.map PyVal.str)) =
        .ok (String.intercalate ", " ss)) ∧
    (∀ kvs : List (String × PyVal),
      normalize_result (.dict kvs) = .ok (json_dumps_val 0 (.dict kvs))) ∧
    (∀ s : String, normalize_result (.str s) = .ok s) ∧
    (∀ n : Int, normalize_result (.int n) = .ok (toString n)) ∧
    (∀ b : Bool, normalize_result (.bool b) = .ok (if b then "True" else "False")) := by
  refine ⟨rfl, ?_, fun _ => rfl, fun _ => rfl, fun _ => rfl, fun _ => rfl⟩
  intro ss
  have h : allStrings (ss.map PyVal.str) = some ss := by
    induction ss with
    | nil => rfl
    | cons s ss ih => simp [allStrings, ih]
  simp [normalize_result, joinResult, h]

/-- C7, counterexample.  A pure-text first response of two text blocks
does not terminate `process_query` in one model call emitting exactly
that text: after two `while` iterations the loop is still running and
the two texts have been printed twice each (the same response is
re-processed each iteration). -/
theorem C7_counterexample :
    process_query oracleTwoTexts mapping1 "q" 2 =
      .ok (.spin { messages := [.user "q"], resp := [.text "a", .text "b"]
                   evs := [.textEv "a", .textEv "b", .textEv "a", .textEv "b"]
                   calls := 1 }) :=
  rfl

/-- C7, amended: for every query whose first response consists of
exactly one block and that block is text, `process_query` emits exactly
that text and terminates (`done`) after exactly one model call; a
pure-text response with several text blocks is not a termination
condition (see the counterexample). -/
theorem C7_single_text_terminates (o : Oracle) (m : Mapping) (q t : String)
    (fuel : Nat) (h : o 0 = [.text t]) :
    process_query o m q (fuel + 1) =
      .ok (.done { messages := [.user q], resp := [.text t]
                   evs := [.textEv t], calls := 1 }) := by
  unfold process_query
  rw [h]
  show Except.ok (Outcome.done { messages := [RTurn.user q] ++ [], resp := [.text t]
                                 evs := [.textEv t], calls := 1 }) =
    Except.ok (Outcome.done { messages := [RTurn.user q], resp := [.text t]
                              evs := [.textEv t], calls := 1 })
  rw [List.append_nil]

/-- C7, witness: the amended statement evaluated on a concrete
single-text-response backend. -/
theorem C7_witness :
    process_query oracleOneText mapping1 "q" 3 =
      .ok (.done { messages := [.user "q"], resp := [.text "hi"]
                   evs := [.textEv "hi"], calls := 1 }) :=
  C7_single_text_terminates oracleOneText mapping1 "q" "hi" 2 rfl

/-- C8: during one pass over a response's blocks, the tool-invocation
events, projected from everything newly emitted, are exactly the
`(name, args)` of the response's tool-call blocks in block order; and
the response's text segments are emitted as a subsequence in block
order (the only other interleaved events are texts of the single-text
inner responses). -/
theorem C8_order_preservation (o : Oracle) (m : Mapping) (bs : List Block)
    (s s1 : St) (h : procBlocks o m bs s = .ok s1) :
    (s1.evs.drop s.evs.length).filterMap evToolProj = bs.filterMap blockToolProj ∧
    List.Sublist (bs.filterMap blockTextProj) (s1.evs.drop s.evs.length) := by
  obtain ⟨-, -, ⟨es, hev, htool, hsub⟩, -⟩ := procBlocks_extension o m bs s s1 h
  rw [hev, List.drop_left]
  exact ⟨htool, hsub⟩

/-- C8, witness: the order statement evaluated on the concrete
two-tool-call pass. -/
theorem C8_witness :
    (stAB.evs.drop st0.evs.length).filterMap evToolProj =
      [tuA, tuB].filterMap blockToolProj ∧
    List.Sublist ([tuA, tuB].filterMap blockTextProj)
      (stAB.evs.drop st0.evs.length) :=
  C8_order_preservation oracle2tools mapping1 [tuA, tuB] st0 stAB rfl

/-- C9: the normalization step is a pure function of the raw return
value: any two `execute_tool` invocations whose capabilities return the
identical raw value produce the identical result string, whatever the
mapping, name, or arguments. -/
theorem C9_normalization_deterministic (mA mB : Mapping) (nA nB : String)
    (aA aB : Args) (cA cB : Capability) (v : PyVal)
    (hA : lookupTool mA nA = some cA) (hB : lookupTool mB nB = some cB)
    (rA : cA aA = .ok v) (rB : cB aB = .ok v) :
    execute_tool mA nA aA = execute_tool mB nB aB := by
  simp [execute_tool, hA, hB, rA, rB]

/-- C9, witness: two invocations with different argument bags but the
same raw return value normalize identically. -/
theorem C9_witness :
    execute_tool mapping1 "search_papers" [] =
      execute_tool mapping1 "search_papers" [("topic", .str "x")] :=
  C9_normalization_deterministic mapping1 mapping1 "search_papers" "search_papers"
    [] [("topic", .str "x")] sp_stub sp_stub (.list [.str "p1", .str "p2"])
    rfl rfl rfl rfl

/-- C10: the REPL exits via its `break` exactly when some input strips
and lowercases to `quit`; an exception from `process_query` is caught,
recorded as an error outcome for that query, and the loop continues
with the remaining inputs unchanged. -/
theorem C10_chat_loop_quit_only (pq : String → Except PyErr Outcome)
    (inputs : List String) :
    ((chat_loop pq inputs).2 = true ↔
      ∃ q ∈ inputs, pyLower (pyStrip q) = "quit") ∧
    (∀ (q : String) (qs : List String) (e : PyErr), pq (pyStrip q) = .error e →
      pyLower (pyStrip q) ≠ "quit" →
      chat_loop pq (q :: qs) =
        ((pyStrip q, .error e) :: (chat_loop pq qs).1, (chat_loop pq qs).2)) := by
  constructor
  · induction inputs with
    | nil => simp [chat_loop]
    | cons q qs ih =>
        by_cases hq : pyLower (pyStrip q) = "quit"
        · simp [chat_loop, hq]
        · simp only [chat_loop, if_neg hq, List.mem_cons]
          rw [ih]
          constructor
          · rintro ⟨x, hx, hxq⟩
            exact ⟨x, Or.inr hx, hxq⟩
          · rintro ⟨x, hx | hx, hxq⟩
            · exact absurd (hx ▸ hxq) hq
            · exact ⟨x, hx, hxq⟩
  · intro q qs e hpq hq
    simp only [chat_loop, if_neg hq, hpq]

/-- C10, witness: a query whose processing raises is recorded and the
loop goes on. -/
theorem C10_witness :
    chat_loop pqBoom ["hello"] =
      ((pyStrip "hello", .error (.capError "boom")) :: (chat_loop pqBoom []).1,
        (chat_loop pqBoom []).2) :=
  (C10_chat_loop_quit_only pqBoom ["hello"]).2 "hello" [] (.capError "boom")
    rfl (by decide)

end ArxivChatbot
